import Mathlib

/-!
Verification of the muduo_learn non-blocking TCP server library.

Shallow embedding of the core data structures and operations:
* `Buffer` — the growable byte buffer with prepend area (Buffer.h).
* `Interest` — a channel's interest mask restricted to the read/write flags
  the code manipulates through `enableReading`/`enableWriting`/
  `disableWriting`/`disableAll` (Channel.h); the raw `events_` integer only
  ever holds unions of `kReadEvent` and `kWriteEvent` built by these methods.
* `handleEventWithGuard` / `handleEvent` — Channel event dispatch (Channel.cc),
  with the ready mask `revents_` kept as a raw bit mask.
* `sendFirstWrite`/`sendInLoop`, `handleWrite`, `shutdown`,
  `connectEstablished` — the TcpConnection send/shutdown state machine
  (TcpConnection.cc), with the kernel `write(2)` outcome supplied as an
  explicit oracle.
* `EPollPoller.updateChannel` / `removeChannel` — the poller's fd→channel
  map and index state machine (EPollPoller.cc).
* `EventLoopThreadPool.getNextLoop` — round-robin loop selection
  (EventLoopThreadPool.cc).
* `Acceptor.setReusePortArg` — the SO_REUSEPORT argument the Acceptor
  constructor actually passes to the socket wrapper (Acceptor.cc).
-/

namespace Muduo

/-! ## Buffer (Buffer.h) -/

def kCheapPrepend : Nat := 8

def kInitialSize : Nat := 1024

/-- Byte buffer: backing storage `buf` (the `std::vector<char>`; its length is
the capacity), plus the two cursors `readerIndex_` and `writerIndex_`. -/
structure Buffer where
  buf : List Nat
  readerIndex : Nat
  writerIndex : Nat
deriving Repr, DecidableEq

namespace Buffer

/-- Fresh buffer of a given initial size (constructor of `Buffer`). -/
def mk' (initialSize : Nat := kInitialSize) : Buffer :=
  { buf := List.replicate (kCheapPrepend + initialSize) 0
    readerIndex := kCheapPrepend
    writerIndex := kCheapPrepend }

def readableBytes (b : Buffer) : Nat := b.writerIndex - b.readerIndex

def writableBytes (b : Buffer) : Nat := b.buf.length - b.writerIndex

def prependableBytes (b : Buffer) : Nat := b.readerIndex

/-- The readable byte sequence, `[readerIndex_, writerIndex_)`. -/
def readableContent (b : Buffer) : List Nat :=
  (b.buf.drop b.readerIndex).take b.readableBytes

/-- The structural invariant from the source's layout diagram:
`0 <= kCheapPrepend <= readerIndex_ <= writerIndex_ <= buffer_.size()`. -/
def Inv (b : Buffer) : Prop :=
  kCheapPrepend ≤ b.readerIndex ∧ b.readerIndex ≤ b.writerIndex ∧
    b.writerIndex ≤ b.buf.length

instance (b : Buffer) : Decidable b.Inv := by
  unfold Inv; infer_instance

def retrieveAll (b : Buffer) : Buffer :=
  { b with readerIndex := kCheapPrepend, writerIndex := kCheapPrepend }

/-- `retrieve(len)`: advance the read cursor, or reset both cursors when the
whole readable region is consumed (the `else` branch also covers
`len > readableBytes()`). -/
def retrieve (b : Buffer) (len : Nat) : Buffer :=
  if len < b.readableBytes then
    { b with readerIndex := b.readerIndex + len }
  else
    b.retrieveAll

/-- `std::vector::resize(n)`: truncate or pad with zero bytes. -/
def listResize (l : List Nat) (n : Nat) : List Nat :=
  l.take n ++ List.replicate (n - l.length) 0

/-- `makeSpace(len)`: grow the backing storage to `writerIndex_ + len` when
even reclaiming the dead prepend space would not fit `len`; otherwise shift
the readable region down to the prepend boundary
(`std::copy(begin()+readerIndex_, begin()+writerIndex_, begin()+kCheapPrepend)`). -/
def makeSpace (b : Buffer) (len : Nat) : Buffer :=
  if b.writableBytes + b.prependableBytes < len + kCheapPrepend then
    { b with buf := listResize b.buf (b.writerIndex + len) }
  else
    let readable := b.readableBytes
    { buf := b.buf.take kCheapPrepend ++
        (b.buf.drop b.readerIndex).take readable ++
        b.buf.drop (kCheapPrepend + readable)
      readerIndex := kCheapPrepend
      writerIndex := kCheapPrepend + readable }

def ensureWriteableBytes (b : Buffer) (len : Nat) : Buffer :=
  if b.writableBytes < len then b.makeSpace len else b

/-- `append(data, len)`: make room, then
`std::copy(data, data+len, beginWrite())` and advance the write cursor. -/
def append (b : Buffer) (data : List Nat) : Buffer :=
  let b' := b.ensureWriteableBytes data.length
  { b' with
    buf := b'.buf.take b'.writerIndex ++ data ++
      b'.buf.drop (b'.writerIndex + data.length)
    writerIndex := b'.writerIndex + data.length }

end Buffer

/-! ## Channel interest mask (Channel.h)

`events_` is mutated only through the enable/disable methods, so it ranges
over unions of `kReadEvent = EPOLLIN | EPOLLPRI` and `kWriteEvent = EPOLLOUT`;
we model it by the two membership flags. -/

structure Interest where
  reading : Bool
  writing : Bool
deriving Repr, DecidableEq

namespace Interest

/-- `kNoneEvent = 0`. -/
def noneEvent : Interest := ⟨false, false⟩

def enableReading (e : Interest) : Interest := { e with reading := true }

def disableReading (e : Interest) : Interest := { e with reading := false }

def enableWriting (e : Interest) : Interest := { e with writing := true }

def disableWriting (e : Interest) : Interest := { e with writing := false }

def disableAll (_ : Interest) : Interest := noneEvent

/-- `isNoneEvent(): events_ == kNoneEvent`. -/
def isNoneEvent (e : Interest) : Bool := e = noneEvent

def isWriting (e : Interest) : Bool := e.writing

def isReading (e : Interest) : Bool := e.reading

end Interest

/-! ## Channel event dispatch (Channel.cc) -/

def EPOLLIN : Nat := 1

def EPOLLPRI : Nat := 2

def EPOLLOUT : Nat := 4

def EPOLLERR : Nat := 8

def EPOLLHUP : Nat := 16

/-- The four callback invocations `handleEventWithGuard` can perform. -/
inductive CbKind where
  | closeCb : CbKind
  | errorCb : CbKind
  | readCb (t : Nat) : CbKind
  | writeCb : CbKind
deriving Repr, DecidableEq

/-- Which of the four channel callbacks are set (non-null `std::function`s). -/
structure ChannelCbs where
  hasClose : Bool
  hasError : Bool
  hasRead : Bool
  hasWrite : Bool
deriving Repr, DecidableEq

def ChannelCbs.all : ChannelCbs := ⟨true, true, true, true⟩

/-- `Channel::handleEventWithGuard(receiveTime)`: the four independent guarded
dispatches, in source order, returned as the list of callback invocations. -/
def handleEventWithGuard (revents : Nat) (cbs : ChannelCbs) (t : Nat) :
    List CbKind :=
  (if revents &&& EPOLLHUP ≠ 0 ∧ revents &&& EPOLLIN = 0 then
    (if cbs.hasClose then [CbKind.closeCb] else []) else []) ++
  (if revents &&& EPOLLERR ≠ 0 then
    (if cbs.hasError then [CbKind.errorCb] else []) else []) ++
  (if revents &&& (EPOLLIN ||| EPOLLPRI) ≠ 0 then
    (if cbs.hasRead then [CbKind.readCb t] else []) else []) ++
  (if revents &&& EPOLLOUT ≠ 0 then
    (if cbs.hasWrite then [CbKind.writeCb] else []) else [])

/-- `Channel::handleEvent(receiveTime)`: when `tied_`, promote the weak
`tie_`; dispatch only if the promotion yields a live guard (`alive`). -/
def handleEvent (tied alive : Bool) (revents : Nat) (cbs : ChannelCbs)
    (t : Nat) : List CbKind :=
  if tied then
    if alive then handleEventWithGuard revents cbs t else []
  else
    handleEventWithGuard revents cbs t

/-! ## TcpConnection (TcpConnection.cc) -/

/-- `enum StateE`. -/
inductive StateE where
  | kDisconnected : StateE
  | kConnecting : StateE
  | kConnected : StateE
  | kDisconnecting : StateE
deriving Repr, DecidableEq

/-- The errno values `sendInLoop` distinguishes. -/
inductive Errno where
  | EWOULDBLOCK : Errno
  | EPIPE : Errno
  | ECONNRESET : Errno
  | otherErr : Errno
deriving Repr, DecidableEq

/-- Outcome of the kernel `::write(fd, data, len)` call, supplied as an
oracle: either `nwrote >= 0` bytes were written, or it failed with an errno. -/
inductive WriteResult where
  | ok (n : Nat) : WriteResult
  | err (e : Errno) : WriteResult
deriving Repr, DecidableEq

/-- Callbacks posted with `loop_->queueInLoop`. -/
inductive Queued where
  | writeComplete : Queued
  | highWaterMark (n : Nat) : Queued
deriving Repr, DecidableEq

def Queued.isHighWaterMark : Queued → Bool
  | .writeComplete => false
  | .highWaterMark _ => true

/-- Result of the first block of `sendInLoop`: the direct-write attempt that
runs when the channel is not watching for writability and the output buffer
is empty. -/
structure FirstWrite where
  nwrote : Nat
  remaining : Nat
  faultError : Bool
  queued : List Queued
deriving Repr, DecidableEq

/-- First block of `TcpConnection::sendInLoop`: attempt `::write` only when
`!channel_->isWriting() && outputBuffer_.readableBytes() == 0`; a full write
queues the write-complete callback; a failed write keeps `nwrote = 0` and
records a fault on `EPIPE`/`ECONNRESET`. -/
def sendFirstWrite (chanInterest : Interest) (outputBuffer : Buffer)
    (wcCbSet : Bool) (data : List Nat) (wr : WriteResult) : FirstWrite :=
  if chanInterest.isWriting = false ∧ outputBuffer.readableBytes = 0 then
    match wr with
    | .ok n =>
      { nwrote := n
        remaining := data.length - n
        faultError := false
        queued := if data.length - n = 0 ∧ wcCbSet = true then
            [Queued.writeComplete] else [] }
    | .err e =>
      { nwrote := 0
        remaining := data.length
        faultError := decide (e ≠ Errno.EWOULDBLOCK ∧
          (e = Errno.EPIPE ∨ e = Errno.ECONNRESET))
        queued := [] }
  else
    { nwrote := 0, remaining := data.length, faultError := false, queued := [] }

/-- Result of `sendInLoop`: the updated output buffer and channel interest,
the queued callbacks, and the number of bytes handed to the kernel. -/
structure SendOutcome where
  outputBuffer : Buffer
  chanInterest : Interest
  queued : List Queued
  nwrote : Nat
deriving Repr, DecidableEq

/-- `TcpConnection::sendInLoop(data, len)`: bail out when `kDisconnected`;
otherwise run the direct-write block, then buffer any remainder, queueing the
high-water-mark callback exactly when the buffered total crosses
`highWaterMark_`, and enable write interest if it was off. -/
def sendInLoop (state : StateE) (chanInterest : Interest)
    (outputBuffer : Buffer) (highWaterMark : Nat) (hwmCbSet wcCbSet : Bool)
    (data : List Nat) (wr : WriteResult) : SendOutcome :=
  if state = StateE.kDisconnected then
    ⟨outputBuffer, chanInterest, [], 0⟩
  else
    let fw := sendFirstWrite chanInterest outputBuffer wcCbSet data wr
    if fw.faultError = false ∧ 0 < fw.remaining then
      let oldLen := outputBuffer.readableBytes
      let q := if highWaterMark ≤ oldLen + fw.remaining ∧
          oldLen < highWaterMark ∧ hwmCbSet = true then
          fw.queued ++ [Queued.highWaterMark (oldLen + fw.remaining)]
        else fw.queued
      ⟨outputBuffer.append (data.drop fw.nwrote),
       (if chanInterest.isWriting = false then chanInterest.enableWriting
        else chanInterest),
       q, fw.nwrote⟩
    else
      ⟨outputBuffer, chanInterest, fw.queued, fw.nwrote⟩

/-- The per-connection state the send/shutdown path manipulates. -/
structure ConnSt where
  state : StateE
  chanInterest : Interest
  outputBuffer : Buffer
  highWaterMark : Nat
  hwmCbSet : Bool
  wcCbSet : Bool
  sockWrShutdown : Bool
  tied : Bool
  connCbCount : Nat
  queued : List Queued
deriving Repr, DecidableEq

namespace TcpConnection

/-- `sendInLoop` lifted to the connection state. -/
def sendInLoopSt (c : ConnSt) (data : List Nat) (wr : WriteResult) : ConnSt :=
  let o := sendInLoop c.state c.chanInterest c.outputBuffer c.highWaterMark
    c.hwmCbSet c.wcCbSet data wr
  { c with outputBuffer := o.outputBuffer
           chanInterest := o.chanInterest
           queued := c.queued ++ o.queued }

/-- `TcpConnection::send(buf)` running on the owning loop: only acts in state
`kConnected`. -/
def send (c : ConnSt) (data : List Nat) (wr : WriteResult) : ConnSt :=
  if c.state = StateE.kConnected then sendInLoopSt c data wr else c

/-- `TcpConnection::shutdownInLoop()`: shut down the socket's write side only
when the channel is no longer interested in writability. -/
def shutdownInLoop (c : ConnSt) : ConnSt :=
  if c.chanInterest.isWriting = false then
    { c with sockWrShutdown := true }
  else
    c

/-- `TcpConnection::shutdown()` (with the posted `shutdownInLoop` running on
the owning loop): transition `kConnected → kDisconnecting`, then try the
write-side shutdown. -/
def shutdown (c : ConnSt) : ConnSt :=
  if c.state = StateE.kConnected then
    shutdownInLoop { c with state := StateE.kDisconnecting }
  else
    c

/-- `TcpConnection::handleWrite()` with the kernel accepting `n` bytes from
the output buffer (`outputBuffer_.writeFd`, `n > 0` on success): retrieve the
sent bytes, and on full drain disable write interest, queue the
write-complete callback, and finish a pending shutdown. -/
def handleWrite (c : ConnSt) (n : Nat) : ConnSt :=
  if c.chanInterest.isWriting then
    if 0 < n then
      let ob := c.outputBuffer.retrieve n
      if ob.readableBytes = 0 then
        let c1 := { c with
          outputBuffer := ob
          chanInterest := c.chanInterest.disableWriting
          queued := c.queued ++
            (if c.wcCbSet then [Queued.writeComplete] else []) }
        if c1.state = StateE.kDisconnecting then shutdownInLoop c1 else c1
      else
        { c with outputBuffer := ob }
    else
      c
  else
    c

/-- `TcpConnection::connectEstablished()`: unconditionally set `kConnected`,
tie the channel, enable read interest, invoke the connection callback.
The source contains no assertion on the prior state. -/
def connectEstablished (c : ConnSt) : ConnSt :=
  { c with state := StateE.kConnected
           tied := true
           chanInterest := c.chanInterest.enableReading
           connCbCount := c.connCbCount + 1 }

end TcpConnection

/-- The connection operations relevant to the shutdown ordering property. -/
inductive ConnOp where
  | sendOp (data : List Nat) (wr : WriteResult) : ConnOp
  | handleWriteOp (n : Nat) : ConnOp
  | shutdownOp : ConnOp
deriving Repr

def connStep (c : ConnSt) : ConnOp → ConnSt
  | .sendOp data wr => TcpConnection.send c data wr
  | .handleWriteOp n => TcpConnection.handleWrite c n
  | .shutdownOp => TcpConnection.shutdown c

/-! ## EPollPoller channel bookkeeping (EPollPoller.cc) -/

def kNew : Int := -1

def kAdded : Int := 1

def kDeleted : Int := 2

/-- The per-channel fields the poller reads and writes. -/
structure PChan where
  events : Interest
  index : Int
deriving Repr, DecidableEq

/-- The poller's world: every channel object (indexed by fd) together with
the set of fds currently stored in the `channels_` map. -/
structure PollerW where
  chans : Nat → PChan
  inMap : List Nat

def PollerW.setIndex (w : PollerW) (fd : Nat) (i : Int) : PollerW :=
  { w with chans := fun x => if x = fd then
      { w.chans fd with index := i } else w.chans x }

def PollerW.setEvents (w : PollerW) (fd : Nat) (ev : Interest) : PollerW :=
  { w with chans := fun x => if x = fd then
      { w.chans fd with events := ev } else w.chans x }

/-- `channels_[fd] = channel` on the `unordered_map` (idempotent insert). -/
def PollerW.insertFd (w : PollerW) (fd : Nat) : PollerW :=
  { w with inMap := if fd ∈ w.inMap then w.inMap else fd :: w.inMap }

/-- `EPollPoller::updateChannel(channel)`: the index-driven state machine.
Backend `epoll_ctl` calls have no effect on the modelled state. -/
def EPollPoller.updateChannel (w : PollerW) (fd : Nat) : PollerW :=
  let ch := w.chans fd
  if ch.index = kNew ∨ ch.index = kDeleted then
    let w1 := if ch.index = kNew then w.insertFd fd else w
    w1.setIndex fd kAdded
  else
    if ch.events.isNoneEvent then
      w.setIndex fd kDeleted
    else
      w

/-- `EPollPoller::removeChannel(channel)`: erase from the map, then reset the
index to `kNew`. -/
def EPollPoller.removeChannel (w : PollerW) (fd : Nat) : PollerW :=
  let w1 := { w with inMap := w.inMap.filter (fun x => x ≠ fd) }
  w1.setIndex fd kNew

/-- How the poller's entry points are reached: a channel mutates its
`events_` and calls `update()` (reaching `updateChannel`), or calls
`remove()` (reaching `removeChannel`). -/
inductive PollerOp where
  | updateCh (fd : Nat) (ev : Interest) : PollerOp
  | removeCh (fd : Nat) : PollerOp

def pollerStep (w : PollerW) : PollerOp → PollerW
  | .updateCh fd ev => EPollPoller.updateChannel (w.setEvents fd ev) fd
  | .removeCh fd => EPollPoller.removeChannel w fd

/-- The spec's map invariant: every channel in `channels_` has index
`kAdded`. -/
def MapInvAdded (w : PollerW) : Prop :=
  ∀ fd ∈ w.inMap, (w.chans fd).index = kAdded

instance (w : PollerW) : Decidable (MapInvAdded w) := by
  unfold MapInvAdded; infer_instance

/-- The invariant the code actually maintains: every channel in `channels_`
has index `kAdded` or `kDeleted` (never `kNew`). -/
def MapInvReg (w : PollerW) : Prop :=
  ∀ fd ∈ w.inMap, (w.chans fd).index = kAdded ∨ (w.chans fd).index = kDeleted

instance (w : PollerW) : Decidable (MapInvReg w) := by
  unfold MapInvReg; infer_instance

/-- A concrete poller world: one channel (fd 5) with read interest, index
`kNew`, map empty — the state right after `Channel` construction. -/
def pollerW0 : PollerW :=
  { chans := fun _ => ⟨⟨true, false⟩, kNew⟩, inMap := [] }

/-! ## EventLoopThreadPool (EventLoopThreadPool.cc) -/

/-- Pool state: loop identities for the base loop and the started worker
loops, plus the round-robin cursor `next_`. -/
structure EventLoopThreadPool where
  baseLoop : Nat
  loops : List Nat
  next : Nat
deriving Repr, DecidableEq

/-- `EventLoopThreadPool::getNextLoop()`: with workers, pick `loops_[next_]`,
advance, and wrap to 0 at the end; with no workers return the base loop. -/
def EventLoopThreadPool.getNextLoop (p : EventLoopThreadPool) :
    Nat × EventLoopThreadPool :=
  if p.loops.isEmpty then
    (p.baseLoop, p)
  else
    let loop := p.loops.getD p.next p.baseLoop
    let n1 := p.next + 1
    (loop, { p with next := if p.loops.length ≤ n1 then 0 else n1 })

/-- The results of `k` successive `getNextLoop` calls. -/
def EventLoopThreadPool.getNextLoops (p : EventLoopThreadPool) :
    Nat → List Nat
  | 0 => []
  | k + 1 => p.getNextLoop.1 :: p.getNextLoop.2.getNextLoops k

/-! ## Acceptor / TcpServer reuse-port option (Acceptor.cc, TcpServer) -/

/-- `enum TcpServer::Option`. -/
inductive TcpServerOption where
  | kNoReusePort : TcpServerOption
  | kReusePort : TcpServerOption
deriving Repr, DecidableEq

/-- The `reuseport` argument TcpServer's constructor passes to the Acceptor:
`option == kReusePort`. -/
def TcpServer.acceptorReuseportArg : TcpServerOption → Bool
  | .kReusePort => true
  | .kNoReusePort => false

/-- The argument the Acceptor constructor actually passes to
`acceptSocket_.setReusePort(...)`. The source calls `setReusePort(true)`,
ignoring its `reuseport` parameter. -/
def Acceptor.setReusePortArg (_reuseport : Bool) : Bool := true

/-! ## Helper lemmas -/

theorem and_two_pow_ne_zero_iff (n i : Nat) :
    n &&& 2 ^ i ≠ 0 ↔ n.testBit i = true := by
  rw [Nat.and_two_pow]
  cases h : n.testBit i with
  | false => simp [h]
  | true => simp [h]

theorem and_three_ne_zero_iff (n : Nat) :
    n &&& 3 ≠ 0 ↔ (n.testBit 0 = true ∨ n.testBit 1 = true) := by
  constructor
  · intro h
    by_contra hc
    push_neg at hc
    apply h
    apply Nat.zero_of_testBit_eq_false
    intro i
    rw [Nat.testBit_land]
    match i with
    | 0 => simp [Bool.not_eq_true] at hc; simp [hc.1]
    | 1 => simp [Bool.not_eq_true] at hc; simp [hc.2]
    | (j + 2) =>
      have h3 : (3 : Nat) < 2 ^ (j + 2) := by
        calc (3 : Nat) < 4 := by norm_num
        _ = 2 ^ 2 := by norm_num
        _ ≤ 2 ^ (j + 2) := Nat.pow_le_pow_right (by norm_num) (by omega)
      simp [Nat.testBit_eq_false_of_lt h3]
  · rintro (h | h) hz
    · have hb := Nat.testBit_land n 3 0
      rw [hz, Nat.zero_testBit, h, show Nat.testBit 3 0 = true from by decide]
        at hb
      simp at hb
    · have hb := Nat.testBit_land n 3 1
      rw [hz, Nat.zero_testBit, h, show Nat.testBit 3 1 = true from by decide]
        at hb
      simp at hb

/-! ## Claim theorems -/

/-- C2: `Channel::handleEvent` with a given ready mask dispatches, in exactly
this order and with independent (non-exclusive) guards: the close callback
when the mask has HUP and not READ, then the error callback when it has ERR,
then the read callback (with the timestamp) when it has READ or PRI, then the
write callback when it has WRITE. -/
theorem handleEventWithGuard_dispatch (revents t : Nat) :
    handleEventWithGuard revents ChannelCbs.all t =
      (if revents.testBit 4 = true ∧ revents.testBit 0 = false then
        [CbKind.closeCb] else []) ++
      (if revents.testBit 3 = true then [CbKind.errorCb] else []) ++
      (if revents.testBit 0 = true ∨ revents.testBit 1 = true then
        [CbKind.readCb t] else []) ++
      (if revents.testBit 2 = true then [CbKind.writeCb] else []) := by
  have h16 : (revents &&& EPOLLHUP ≠ 0) ↔ revents.testBit 4 = true := by
    have he : EPOLLHUP = 2 ^ 4 := by norm_num [EPOLLHUP]
    rw [he]; exact and_two_pow_ne_zero_iff revents 4
  have h8 : (revents &&& EPOLLERR ≠ 0) ↔ revents.testBit 3 = true := by
    have he : EPOLLERR = 2 ^ 3 := by norm_num [EPOLLERR]
    rw [he]; exact and_two_pow_ne_zero_iff revents 3
  have h4 : (revents &&& EPOLLOUT ≠ 0) ↔ revents.testBit 2 = true := by
    have he : EPOLLOUT = 2 ^ 2 := by norm_num [EPOLLOUT]
    rw [he]; exact and_two_pow_ne_zero_iff revents 2
  have h1 : (revents &&& EPOLLIN = 0) ↔ revents.testBit 0 = false := by
    have he : EPOLLIN = 2 ^ 0 := by norm_num [EPOLLIN]
    have hiff := and_two_pow_ne_zero_iff revents 0
    rw [he]
    constructor
    · intro hz
      cases hb : revents.testBit 0 with
      | false => rfl
      | true => exact absurd hz (hiff.mpr hb)
    · intro hb
      by_contra hz
      have := hiff.mp hz
      rw [hb] at this
      exact Bool.false_ne_true this
  have h3 : (revents &&& (EPOLLIN ||| EPOLLPRI) ≠ 0) ↔
      (revents.testBit 0 = true ∨ revents.testBit 1 = true) := by
    have he : EPOLLIN ||| EPOLLPRI = 3 := by decide
    rw [he]; exact and_three_ne_zero_iff revents
  simp only [handleEventWithGuard, ChannelCbs.all, h16, h8, h4, h1, h3,
    if_true]

theorem makeSpace_props (b : Buffer) (need : Nat) (hInv : b.Inv)
    (hlt : b.writableBytes < need) :
    ((need ≤ b.writableBytes + (b.readerIndex - kCheapPrepend) →
        (b.makeSpace need).readerIndex = kCheapPrepend ∧
        (b.makeSpace need).writerIndex = kCheapPrepend + b.readableBytes) ∧
     (b.writableBytes + (b.readerIndex - kCheapPrepend) < need →
        (b.makeSpace need).buf.length = b.writerIndex + need)) ∧
    need ≤ (b.makeSpace need).writableBytes ∧
    (b.makeSpace need).readableContent = b.readableContent ∧
    (b.makeSpace need).Inv ∧
    (b.makeSpace need).readableBytes = b.readableBytes := by
  obtain ⟨h8, hrw, hwl⟩ := hInv
  simp only [kCheapPrepend] at h8
  simp only [Buffer.writableBytes] at hlt
  by_cases hg : b.writableBytes + b.prependableBytes < need + kCheapPrepend
  · have hgL : b.buf.length - b.writerIndex + b.readerIndex < need + 8 := by
      simpa [Buffer.writableBytes, Buffer.prependableBytes, kCheapPrepend]
        using hg
    have hres : b.makeSpace need =
        { b with buf := Buffer.listResize b.buf (b.writerIndex + need) } := by
      unfold Buffer.makeSpace
      rw [if_pos hg]
    have htake : b.buf.take (b.writerIndex + need) = b.buf :=
      List.take_of_length_le (by omega)
    have hlen8 : (Buffer.listResize b.buf (b.writerIndex + need)).length =
        b.writerIndex + need := by
      simp [Buffer.listResize, htake]
      omega
    rw [hres]
    simp only [Buffer.writableBytes, Buffer.readableBytes,
      Buffer.readableContent, Buffer.Inv, kCheapPrepend]
    refine ⟨⟨?_, ?_⟩, ?_, ?_, ?_, ?_⟩
    · intro ha
      omega
    · intro _
      exact hlen8
    · simp only [hlen8]
      omega
    · simp only [Buffer.listResize, htake]
      rw [List.drop_append_of_le_length (by omega)]
      rw [List.take_append_of_le_length (by simp [List.length_drop]; omega)]
    · simp only [hlen8]
      omega
    · trivial
  · have hgL : ¬(b.buf.length - b.writerIndex + b.readerIndex < need + 8) := by
      simp only [Buffer.writableBytes, Buffer.prependableBytes,
        kCheapPrepend] at hg
      omega
    have hres : b.makeSpace need =
        { buf := b.buf.take kCheapPrepend ++
            (b.buf.drop b.readerIndex).take (b.writerIndex - b.readerIndex) ++
            b.buf.drop (kCheapPrepend + (b.writerIndex - b.readerIndex))
          readerIndex := kCheapPrepend
          writerIndex :=
            kCheapPrepend + (b.writerIndex - b.readerIndex) } := by
      unfold Buffer.makeSpace
      rw [if_neg hg]
      simp only [Buffer.readableBytes]
    have ht8 : (b.buf.take 8).length = 8 := by
      simp only [List.length_take]
      omega
    have hsl : ((b.buf.drop b.readerIndex).take
        (b.writerIndex - b.readerIndex)).length =
        b.writerIndex - b.readerIndex := by
      simp only [List.length_take, List.length_drop]
      omega
    have hlen8 : (b.buf.take 8 ++
        (b.buf.drop b.readerIndex).take (b.writerIndex - b.readerIndex) ++
        b.buf.drop (8 + (b.writerIndex - b.readerIndex))).length =
        b.buf.length := by
      simp only [List.length_append, ht8, hsl, List.length_drop]
      omega
    rw [hres]
    simp only [Buffer.writableBytes, Buffer.readableBytes,
      Buffer.readableContent, Buffer.Inv, kCheapPrepend]
    refine ⟨⟨?_, ?_⟩, ?_, ?_, ?_, ?_⟩
    · intro _
      exact ⟨trivial, trivial⟩
    · intro hb
      omega
    · simp only [hlen8]
      omega
    · have hamt : 8 + (b.writerIndex - b.readerIndex) - 8 =
          b.writerIndex - b.readerIndex := by omega
      rw [hamt, List.append_assoc]
      rw [List.drop_left' ht8]
      rw [List.take_left' hsl]
    · simp only [hlen8]
      omega
    · omega

theorem ensureWriteable_props (b : Buffer) (len : Nat) (hInv : b.Inv) :
    len ≤ (b.ensureWriteableBytes len).writableBytes ∧
    (b.ensureWriteableBytes len).readableContent = b.readableContent ∧
    (b.ensureWriteableBytes len).readableBytes = b.readableBytes ∧
    (b.ensureWriteableBytes len).Inv := by
  unfold Buffer.ensureWriteableBytes
  split
  · rename_i h
    obtain ⟨_, hwb, hctn, hinv, hrb⟩ := makeSpace_props b len hInv h
    exact ⟨hwb, hctn, hrb, hinv⟩
  · rename_i h
    exact ⟨by omega, rfl, rfl, hInv⟩

theorem append_props (b : Buffer) (data : List Nat) (hInv : b.Inv) :
    (b.append data).readableContent = b.readableContent ++ data ∧
    (b.append data).readableBytes = b.readableBytes + data.length ∧
    (b.append data).Inv := by
  obtain ⟨hwb, hctn, hrb, hinv⟩ := ensureWriteable_props b data.length hInv
  obtain ⟨h8, hrw, hwl⟩ := hinv
  simp only [kCheapPrepend] at h8
  simp only [Buffer.writableBytes] at hwb
  set c := b.ensureWriteableBytes data.length with hc
  have hA : (c.buf.take c.writerIndex).length = c.writerIndex := by
    simp only [List.length_take]
    omega
  have hr : b.append data =
      { c with
        buf := c.buf.take c.writerIndex ++ data ++
          c.buf.drop (c.writerIndex + data.length)
        writerIndex := c.writerIndex + data.length } := by
    unfold Buffer.append
    rw [← hc]
  have hAdrop : (c.buf.take c.writerIndex).drop c.readerIndex =
      c.readableContent := by
    rw [List.drop_take]
    rfl
  have hAdlen : ((c.buf.take c.writerIndex).drop c.readerIndex).length =
      c.writerIndex - c.readerIndex := by
    simp only [List.length_drop, hA]
  refine ⟨?_, ?_, ?_⟩
  · rw [hr]
    simp only [Buffer.readableContent, Buffer.readableBytes]
    have hamt : c.writerIndex + data.length - c.readerIndex =
        ((c.buf.take c.writerIndex).drop c.readerIndex).length +
          data.length := by
      rw [hAdlen]
      omega
    rw [hamt, List.append_assoc]
    rw [List.drop_append_of_le_length (by rw [hA]; exact hrw)]
    rw [List.take_append]
    rw [List.take_left' rfl]
    rw [hAdrop, hctn]
    rfl
  · have hpr : (b.append data).readerIndex = c.readerIndex := by rw [hr]
    have hpw : (b.append data).writerIndex =
        c.writerIndex + data.length := by rw [hr]
    simp only [Buffer.readableBytes] at hrb ⊢
    rw [hpr, hpw]
    omega
  · have hpr : (b.append data).readerIndex = c.readerIndex := by rw [hr]
    have hpw : (b.append data).writerIndex =
        c.writerIndex + data.length := by rw [hr]
    have hpl : (b.append data).buf.length = c.buf.length := by
      rw [hr]
      show (c.buf.take c.writerIndex ++ data ++
        c.buf.drop (c.writerIndex + data.length)).length = c.buf.length
      simp only [List.length_append, List.length_drop, hA]
      omega
    unfold Buffer.Inv
    rw [hpr, hpw, hpl]
    simp only [kCheapPrepend]
    omega

/-- C5: when `writable_bytes() < need`, `makeSpace` shifts the readable
region to the prepend boundary (readerIndex becomes `kCheapPrepend`,
writerIndex becomes `kCheapPrepend` plus the old readable length) exactly
when `writableBytes() + (readerIndex - kCheapPrepend) >= need`, and otherwise
resizes the backing storage to `writerIndex + need`; in both cases the
resulting writable space is at least `need`, the readable byte sequence is
unchanged, and the layout invariant
`kCheapPrepend <= readerIndex <= writerIndex <= capacity` still holds. -/
theorem makeSpace_spec (b : Buffer) (need : Nat) (hInv : b.Inv)
    (hlt : b.writableBytes < need) :
    ((need ≤ b.writableBytes + (b.readerIndex - kCheapPrepend) →
        (b.makeSpace need).readerIndex = kCheapPrepend ∧
        (b.makeSpace need).writerIndex = kCheapPrepend + b.readableBytes) ∧
     (b.writableBytes + (b.readerIndex - kCheapPrepend) < need →
        (b.makeSpace need).buf.length = b.writerIndex + need)) ∧
    need ≤ (b.makeSpace need).writableBytes ∧
    (b.makeSpace need).readableContent = b.readableContent ∧
    (b.makeSpace need).Inv := by
  obtain ⟨hcase, hwb, hctn, hinv, _⟩ := makeSpace_props b need hInv hlt
  exact ⟨hcase, hwb, hctn, hinv⟩

/-- Witness for C5: buffer of capacity 12 with cursors 10/12 and no writable
room; requesting 2 bytes reclaims the dead prepend space by shifting, after
which 2 bytes are writable and the readable bytes are unchanged. -/
theorem makeSpace_spec_witness :
    (⟨List.replicate 12 0, 10, 12⟩ : Buffer).Inv ∧
    (⟨List.replicate 12 0, 10, 12⟩ : Buffer).writableBytes < 2 ∧
    2 ≤ ((⟨List.replicate 12 0, 10, 12⟩ : Buffer).makeSpace 2).writableBytes := by
  refine ⟨by decide, by decide, ?_⟩
  exact (makeSpace_spec ⟨List.replicate 12 0, 10, 12⟩ 2 (by decide)
    (by decide)).2.1

theorem sendFirstWrite_queued (ev : Interest) (b : Buffer) (wcCbSet : Bool)
    (data : List Nat) (wr : WriteResult) :
    (sendFirstWrite ev b wcCbSet data wr).queued = [] ∨
    (sendFirstWrite ev b wcCbSet data wr).queued = [Queued.writeComplete] := by
  unfold sendFirstWrite
  split
  · cases wr with
    | ok n =>
      simp only
      split
      · exact Or.inr rfl
      · exact Or.inl rfl
    | err e => exact Or.inl rfl
  · exact Or.inl rfl

theorem sendFirstWrite_countHwm (ev : Interest) (b : Buffer) (wcCbSet : Bool)
    (data : List Nat) (wr : WriteResult) :
    (sendFirstWrite ev b wcCbSet data wr).queued.countP
      Queued.isHighWaterMark = 0 ∧
    ∀ k, Queued.highWaterMark k ∉ (sendFirstWrite ev b wcCbSet data wr).queued := by
  rcases sendFirstWrite_queued ev b wcCbSet data wr with h | h <;>
    simp [h, Queued.isHighWaterMark]

/-- C1: in `sendInLoop`, when bytes remain unsent (`remaining > 0`) and no
fatal error occurred, the high-water-mark callback (when registered) is
queued iff `oldLen + remaining >= highWaterMark` and `oldLen <
highWaterMark`, where `oldLen` is the output buffer's readable size before
the append, and it carries the new total `oldLen + remaining`; it is queued
at most once overall; hence a single send of more than `highWaterMark > 0`
bytes while the buffer is empty and the kernel accepts nothing queues it
exactly once with a reported size at least `highWaterMark`. The unsent bytes
are appended to the output buffer and write interest ends up enabled. -/
theorem sendInLoop_highWaterMark (state : StateE) (ev : Interest)
    (b : Buffer) (hwm : Nat) (wcCbSet : Bool) (data : List Nat)
    (wr : WriteResult) (hInv : b.Inv) (hst : state ≠ StateE.kDisconnected)
    (hfault : (sendFirstWrite ev b wcCbSet data wr).faultError = false)
    (hrem : 0 < (sendFirstWrite ev b wcCbSet data wr).remaining) :
    (Queued.highWaterMark
        (b.readableBytes + (sendFirstWrite ev b wcCbSet data wr).remaining) ∈
        (sendInLoop state ev b hwm true wcCbSet data wr).queued ↔
      (hwm ≤ b.readableBytes +
          (sendFirstWrite ev b wcCbSet data wr).remaining ∧
        b.readableBytes < hwm)) ∧
    ((sendInLoop state ev b hwm true wcCbSet data wr).queued.countP
        Queued.isHighWaterMark =
      if hwm ≤ b.readableBytes +
            (sendFirstWrite ev b wcCbSet data wr).remaining ∧
          b.readableBytes < hwm then 1 else 0) ∧
    ((sendInLoop state ev b hwm true wcCbSet data
        wr).outputBuffer.readableContent =
      b.readableContent ++
        data.drop (sendFirstWrite ev b wcCbSet data wr).nwrote) ∧
    (sendInLoop state ev b hwm true wcCbSet data wr).chanInterest.isWriting =
      true ∧
    (b.readableBytes = 0 → 0 < hwm → hwm < data.length →
      wr = WriteResult.err Errno.EWOULDBLOCK →
      (sendInLoop state ev b hwm true wcCbSet data wr).queued.countP
          Queued.isHighWaterMark = 1 ∧
      ∀ k, Queued.highWaterMark k ∈
          (sendInLoop state ev b hwm true wcCbSet data wr).queued →
        hwm ≤ k) := by
  obtain ⟨hcnt0, hmem0⟩ := sendFirstWrite_countHwm ev b wcCbSet data wr
  have hs : sendInLoop state ev b hwm true wcCbSet data wr =
      ⟨b.append (data.drop (sendFirstWrite ev b wcCbSet data wr).nwrote),
       (if ev.isWriting = false then ev.enableWriting else ev),
       (if hwm ≤ b.readableBytes +
            (sendFirstWrite ev b wcCbSet data wr).remaining ∧
           b.readableBytes < hwm ∧ true = true then
         (sendFirstWrite ev b wcCbSet data wr).queued ++
           [Queued.highWaterMark (b.readableBytes +
             (sendFirstWrite ev b wcCbSet data wr).remaining)]
        else (sendFirstWrite ev b wcCbSet data wr).queued),
       (sendFirstWrite ev b wcCbSet data wr).nwrote⟩ := by
    unfold sendInLoop
    rw [if_neg hst, if_pos ⟨hfault, hrem⟩]
  have hq : (sendInLoop state ev b hwm true wcCbSet data wr).queued =
      (if hwm ≤ b.readableBytes +
            (sendFirstWrite ev b wcCbSet data wr).remaining ∧
           b.readableBytes < hwm ∧ true = true then
         (sendFirstWrite ev b wcCbSet data wr).queued ++
           [Queued.highWaterMark (b.readableBytes +
             (sendFirstWrite ev b wcCbSet data wr).remaining)]
        else (sendFirstWrite ev b wcCbSet data wr).queued) := by
    rw [hs]
  have hob : (sendInLoop state ev b hwm true wcCbSet data wr).outputBuffer =
      b.append (data.drop (sendFirstWrite ev b wcCbSet data wr).nwrote) := by
    rw [hs]
  have hci : (sendInLoop state ev b hwm true wcCbSet data wr).chanInterest =
      (if ev.isWriting = false then ev.enableWriting else ev) := by
    rw [hs]
  refine ⟨?_, ?_, ?_, ?_, ?_⟩
  · rw [hq]
    constructor
    · intro hmem
      by_contra hc
      rw [if_neg (by tauto)] at hmem
      exact hmem0 _ hmem
    · intro hc
      rw [if_pos ⟨hc.1, hc.2, rfl⟩]
      simp
  · rw [hq]
    by_cases hc : hwm ≤ b.readableBytes +
        (sendFirstWrite ev b wcCbSet data wr).remaining ∧
        b.readableBytes < hwm
    · rw [if_pos ⟨hc.1, hc.2, rfl⟩, if_pos hc]
      simp [List.countP_append, hcnt0, Queued.isHighWaterMark]
    · rw [if_neg (by tauto), if_neg hc]
      exact hcnt0
  · rw [hob]
    exact (append_props b _ hInv).1
  · rw [hci]
    by_cases hw : ev.isWriting = false
    · rw [if_pos hw]
      rfl
    · rw [if_neg hw]
      simpa using hw
  · intro h0 hpos hM hwr
    have hrem5 : (sendFirstWrite ev b wcCbSet data wr).remaining =
        data.length := by
      subst hwr
      unfold sendFirstWrite
      split
      · rfl
      · rfl
    constructor
    · rw [hq, if_pos (by rw [hrem5, h0]; exact ⟨by omega, by omega, rfl⟩)]
      simp [List.countP_append, hcnt0, Queued.isHighWaterMark]
    · intro k hk
      rw [hq] at hk
      by_cases hc : hwm ≤ b.readableBytes +
          (sendFirstWrite ev b wcCbSet data wr).remaining ∧
          b.readableBytes < hwm
      · rw [if_pos ⟨hc.1, hc.2, rfl⟩] at hk
        rcases List.mem_append.mp hk with h | h
        · exact absurd h (hmem0 k)
        · simp at h
          rw [h, hrem5, h0]
          omega
      · rw [if_neg (by tauto)] at hk
        exact absurd hk (hmem0 k)

/-- Witness for C1: a connected, read-only-interest connection with an empty
output buffer sends 5 bytes against a full kernel buffer (EWOULDBLOCK) with
`highWaterMark = 3`: exactly one high-water-mark callback is queued. -/
theorem sendInLoop_highWaterMark_witness :
    (sendInLoop StateE.kConnected ⟨true, false⟩ (Buffer.mk' 4) 3 true true
      [1, 2, 3, 4, 5] (WriteResult.err Errno.EWOULDBLOCK)).queued.countP
      Queued.isHighWaterMark = 1 :=
  ((sendInLoop_highWaterMark StateE.kConnected ⟨true, false⟩ (Buffer.mk' 4) 3
      true [1, 2, 3, 4, 5] (WriteResult.err Errno.EWOULDBLOCK) (by decide)
      (by decide) (by decide) (by decide)).2.2.2.2 (by decide) (by decide)
      (by decide) rfl).1

/-- C9: Buffer::retrieve is total for every argument `n`: when
`n < readableBytes()` it advances only the read cursor by `n`; otherwise
(including `n > readableBytes()`) it resets both cursors to `kCheapPrepend`,
and in all cases `readerIndex <= writerIndex` is preserved. -/
theorem retrieve_total (b : Buffer) (n : Nat) (hInv : b.Inv) :
    ((n < b.readableBytes →
        (b.retrieve n).readerIndex = b.readerIndex + n ∧
        (b.retrieve n).writerIndex = b.writerIndex) ∧
     (b.readableBytes ≤ n →
        (b.retrieve n).readerIndex = kCheapPrepend ∧
        (b.retrieve n).writerIndex = kCheapPrepend)) ∧
    (b.retrieve n).readerIndex ≤ (b.retrieve n).writerIndex := by
  obtain ⟨h1, h2, h3⟩ := hInv
  unfold Buffer.retrieve Buffer.retrieveAll Buffer.readableBytes at *
  split <;> simp_all <;> omega

/-- Witness for C9 at a concrete buffer: capacity 16, cursors 10 and 14,
retrieving 100 bytes (more than the 4 readable) resets both cursors. -/
theorem retrieve_total_witness :
    (⟨List.replicate 16 0, 10, 14⟩ : Buffer).Inv ∧
    ((⟨List.replicate 16 0, 10, 14⟩ : Buffer).retrieve 100).readerIndex =
      kCheapPrepend ∧
    ((⟨List.replicate 16 0, 10, 14⟩ : Buffer).retrieve 100).writerIndex =
      kCheapPrepend := by
  refine ⟨by decide, ?_⟩
  exact (retrieve_total ⟨List.replicate 16 0, 10, 14⟩ 100 (by decide)).1.2
    (by decide)

/-- C4: after `shutdown()` on a connected connection the state is
`kDisconnecting` and the write side closes immediately only when write
interest is off; every step that newly shuts the write side leaves write
interest disabled (the deferred shutdown happens in `handleWrite` on full
drain in state `kDisconnecting`); and after `shutdown()` no sequence of
send/handleWrite/shutdown steps restores `kConnected`, while `send` on a
non-`kConnected` connection is a complete no-op (no write, no append). -/
theorem shutdown_ordering (c : ConnSt) (n : Nat) (data : List Nat)
    (wr : WriteResult) (ops : List ConnOp)
    (hC : c.state = StateE.kConnected) :
    ((TcpConnection.shutdown c).state = StateE.kDisconnecting ∧
     (TcpConnection.shutdown c).sockWrShutdown =
       (if c.chanInterest.isWriting = false then true
        else c.sockWrShutdown)) ∧
    (∀ c' : ConnSt, c'.state ≠ StateE.kConnected →
      TcpConnection.send c' data wr = c') ∧
    (ops.foldl connStep (TcpConnection.shutdown c)).state ≠
      StateE.kConnected ∧
    (∀ (c' : ConnSt) (op : ConnOp), c'.sockWrShutdown = false →
      (connStep c' op).sockWrShutdown = true →
      (connStep c' op).chanInterest.isWriting = false) ∧
    (∀ c' : ConnSt, c'.state = StateE.kDisconnecting →
      c'.chanInterest.isWriting = true → 0 < n →
      c'.outputBuffer.readableBytes ≤ n →
      (TcpConnection.handleWrite c' n).sockWrShutdown = true ∧
      (TcpConnection.handleWrite c' n).chanInterest.isWriting = false ∧
      (TcpConnection.handleWrite c' n).outputBuffer.readableBytes = 0) := by
  have hsendid : ∀ (c' : ConnSt), c'.state ≠ StateE.kConnected →
      TcpConnection.send c' data wr = c' := by
    intro c' h'
    unfold TcpConnection.send
    rw [if_neg h']
  have hsd : (TcpConnection.shutdown c).state = StateE.kDisconnecting := by
    unfold TcpConnection.shutdown TcpConnection.shutdownInLoop
    rw [if_pos hC]
    split <;> rfl
  have hwst : ∀ (c' : ConnSt) (m : Nat),
      (TcpConnection.handleWrite c' m).state = c'.state := by
    intro c' m
    simp only [TcpConnection.handleWrite, TcpConnection.shutdownInLoop]
    repeat' split
    all_goals rfl
  have hsendsw : ∀ (c' : ConnSt) (d : List Nat) (w : WriteResult),
      (TcpConnection.send c' d w).sockWrShutdown = c'.sockWrShutdown := by
    intro c' d w
    unfold TcpConnection.send TcpConnection.sendInLoopSt
    split <;> rfl
  have hsendst : ∀ (c' : ConnSt) (d : List Nat) (w : WriteResult),
      (TcpConnection.send c' d w).state = c'.state := by
    intro c' d w
    unfold TcpConnection.send TcpConnection.sendInLoopSt
    split <;> rfl
  have hshst : ∀ c' : ConnSt, c'.state ≠ StateE.kConnected →
      (TcpConnection.shutdown c').state = c'.state := by
    intro c' h'
    unfold TcpConnection.shutdown
    rw [if_neg h']
  have hpres : ∀ (c' : ConnSt) (op : ConnOp),
      c'.state ≠ StateE.kConnected →
      (connStep c' op).state ≠ StateE.kConnected := by
    intro c' op h'
    cases op with
    | sendOp d w => rw [connStep, hsendst]; exact h'
    | handleWriteOp m => rw [connStep, hwst]; exact h'
    | shutdownOp => rw [connStep, hshst c' h']; exact h'
  refine ⟨?_, hsendid, ?_, ?_, ?_⟩
  · refine ⟨hsd, ?_⟩
    unfold TcpConnection.shutdown TcpConnection.shutdownInLoop
    rw [if_pos hC]
    by_cases hw : c.chanInterest.isWriting = false
    · rw [if_pos hw, if_pos hw]
    · rw [if_neg hw, if_neg hw]
  · have hfold : ∀ (l : List ConnOp) (c' : ConnSt),
        c'.state ≠ StateE.kConnected →
        (l.foldl connStep c').state ≠ StateE.kConnected := by
      intro l
      induction l with
      | nil => intro c' h'; exact h'
      | cons op tl ih => intro c' h'; exact ih _ (hpres c' op h')
    exact hfold ops _ (by rw [hsd]; intro h; exact nomatch h)
  · intro c' op h0 h1
    cases op with
    | sendOp d w =>
      rw [connStep, hsendsw, h0] at h1
      exact nomatch h1
    | handleWriteOp m =>
      by_cases hw : c'.chanInterest.isWriting = true
      · have hw2 : c'.chanInterest.writing = true := hw
        by_cases hm : 0 < m
        · by_cases hr : (c'.outputBuffer.retrieve m).readableBytes = 0
          · by_cases hd : c'.state = StateE.kDisconnecting
            · simp [connStep, TcpConnection.handleWrite, hw, hw2, hm, hr, hd,
                TcpConnection.shutdownInLoop, Interest.disableWriting,
                Interest.isWriting]
            · simp [connStep, TcpConnection.handleWrite, hw, hw2, hm, hr, hd,
                Interest.disableWriting, Interest.isWriting]
          · simp [connStep, TcpConnection.handleWrite, hw, hw2, hm, hr,
              h0] at h1
        · simp [connStep, TcpConnection.handleWrite, hw, hw2, hm, h0] at h1
      · have hw2 : ¬(c'.chanInterest.writing = true) := hw
        simp [connStep, TcpConnection.handleWrite, Interest.isWriting, hw2,
          h0] at h1
    | shutdownOp =>
      by_cases hc' : c'.state = StateE.kConnected
      · by_cases hw : c'.chanInterest.isWriting = false
        · have hw2 : c'.chanInterest.writing = false := hw
          simp [connStep, TcpConnection.shutdown, hc',
            TcpConnection.shutdownInLoop, Interest.isWriting, hw2]
        · have hw2 : ¬(c'.chanInterest.writing = false) := hw
          simp [connStep, TcpConnection.shutdown, hc',
            TcpConnection.shutdownInLoop, Interest.isWriting, hw2,
            h0] at h1
      · simp [connStep, TcpConnection.shutdown, hc', h0] at h1
  · intro c' hdc hw hn hrle
    have hw2 : c'.chanInterest.writing = true := hw
    have hr0 : (c'.outputBuffer.retrieve n).readableBytes = 0 := by
      unfold Buffer.retrieve Buffer.retrieveAll Buffer.readableBytes at *
      split
      · omega
      · simp
    simp [TcpConnection.handleWrite, hw, hw2, hn, hr0, hdc,
      TcpConnection.shutdownInLoop, Interest.disableWriting,
      Interest.isWriting]

/-- Witness for C4 at a concrete connected connection with one unsent byte:
after `shutdown()` followed by a fully draining `handleWrite`, the state is
not `kConnected`. -/
theorem shutdown_ordering_witness :
    ([ConnOp.handleWriteOp 5].foldl connStep
      (TcpConnection.shutdown
        ⟨StateE.kConnected, ⟨true, true⟩, ⟨List.replicate 12 0, 8, 9⟩, 64,
          true, true, false, true, 1, []⟩)).state ≠ StateE.kConnected :=
  (shutdown_ordering
    ⟨StateE.kConnected, ⟨true, true⟩, ⟨List.replicate 12 0, 8, 9⟩, 64,
      true, true, false, true, 1, []⟩ 5 [1] (WriteResult.ok 1)
    [ConnOp.handleWriteOp 5] (by decide)).2.2.1

/-- C10: when a channel has been tied and the weak tie can no longer be
promoted (`alive = false`), `handleEvent` dispatches none of the callbacks;
callbacks run (via `handleEventWithGuard`) exactly when the promotion
succeeds or the channel was never tied. -/
theorem handleEvent_tie_guard (tied alive : Bool) (revents : Nat)
    (cbs : ChannelCbs) (t : Nat) :
    (tied = true → alive = false →
      handleEvent tied alive revents cbs t = []) ∧
    (tied = false ∨ alive = true →
      handleEvent tied alive revents cbs t =
        handleEventWithGuard revents cbs t) := by
  cases tied <;> cases alive <;> simp [handleEvent]

/-- Witness for C10: a tied channel whose owner is gone dispatches nothing
even with all five event bits set and all callbacks present. -/
theorem handleEvent_tie_guard_witness :
    handleEvent true false 31 ChannelCbs.all 7 = [] :=
  (handleEvent_tie_guard true false 31 ChannelCbs.all 7).1 rfl rfl

theorem setIndex_inMap (w : PollerW) (fd : Nat) (i : Int) :
    (w.setIndex fd i).inMap = w.inMap := rfl

theorem setEvents_inMap (w : PollerW) (fd : Nat) (ev : Interest) :
    (w.setEvents fd ev).inMap = w.inMap := rfl

theorem setIndex_index_self (w : PollerW) (fd : Nat) (i : Int) :
    ((w.setIndex fd i).chans fd).index = i := by
  simp [PollerW.setIndex]

theorem setIndex_index_other (w : PollerW) (fd g : Nat) (i : Int)
    (h : g ≠ fd) : ((w.setIndex fd i).chans g) = w.chans g := by
  simp [PollerW.setIndex, h]

theorem setEvents_index (w : PollerW) (fd g : Nat) (ev : Interest) :
    ((w.setEvents fd ev).chans g).index = (w.chans g).index := by
  by_cases h : g = fd
  · subst h
    simp [PollerW.setEvents]
  · simp [PollerW.setEvents, h]

theorem insertFd_mem (w : PollerW) (fd g : Nat) :
    g ∈ (w.insertFd fd).inMap ↔ g = fd ∨ g ∈ w.inMap := by
  by_cases hmem : fd ∈ w.inMap
  · simp only [PollerW.insertFd, if_pos hmem]
    constructor
    · exact Or.inr
    · rintro (rfl | h)
      · exact hmem
      · exact h
  · simp only [PollerW.insertFd, if_neg hmem, List.mem_cons]

theorem pollerStep_mapInv (w : PollerW) (op : PollerOp) (g : Nat)
    (hg : g ∈ (pollerStep w op).inMap) :
    (g ∈ w.inMap ∧
      ((pollerStep w op).chans g).index = (w.chans g).index) ∨
    ((pollerStep w op).chans g).index = kAdded ∨
    ((pollerStep w op).chans g).index = kDeleted := by
  cases op with
  | updateCh fd ev =>
    simp only [pollerStep, EPollPoller.updateChannel] at hg ⊢
    by_cases hguard : ((w.setEvents fd ev).chans fd).index = kNew ∨
        ((w.setEvents fd ev).chans fd).index = kDeleted
    · rw [if_pos hguard] at hg ⊢
      by_cases hgfd : g = fd
      · subst hgfd
        right
        left
        exact setIndex_index_self _ g kAdded
      · left
        constructor
        · rw [setIndex_inMap] at hg
          by_cases hnew : ((w.setEvents fd ev).chans fd).index = kNew
          · rw [if_pos hnew] at hg
            rcases (insertFd_mem _ fd g).mp hg with h | h
            · exact absurd h hgfd
            · exact h
          · rw [if_neg hnew] at hg
            exact hg
        · rw [setIndex_index_other _ fd g kAdded hgfd]
          by_cases hnew : ((w.setEvents fd ev).chans fd).index = kNew
          · rw [if_pos hnew]
            show (((w.setEvents fd ev).insertFd fd).chans g).index =
              (w.chans g).index
            exact setEvents_index w fd g ev
          · rw [if_neg hnew]
            exact setEvents_index w fd g ev
    · rw [if_neg hguard] at hg ⊢
      by_cases hnone : ((w.setEvents fd ev).chans fd).events.isNoneEvent
      · rw [if_pos hnone] at hg ⊢
        by_cases hgfd : g = fd
        · subst hgfd
          right
          right
          exact setIndex_index_self _ g kDeleted
        · left
          rw [setIndex_inMap, setEvents_inMap] at hg
          rw [setIndex_index_other _ fd g kDeleted hgfd]
          exact ⟨hg, setEvents_index w fd g ev⟩
      · rw [if_neg hnone] at hg ⊢
        left
        rw [setEvents_inMap] at hg
        exact ⟨hg, setEvents_index w fd g ev⟩
  | removeCh fd =>
    simp only [pollerStep, EPollPoller.removeChannel] at hg ⊢
    rw [setIndex_inMap] at hg
    simp only [List.mem_filter] at hg
    obtain ⟨hmem, hne⟩ := hg
    have hgfd : g ≠ fd := by simpa using hne
    left
    rw [setIndex_index_other _ fd g kNew hgfd]
    exact ⟨hmem, rfl⟩

/-- C3 counterexample: register a fresh (index NEW) channel for fd 5 via
`updateChannel`, then call `updateChannel` again after its interest mask was
cleared: the backend DEL is issued and the index set to DELETED, but the
channel stays in the fd map, so "every channel in the map has
`poller_index == ADDED`" fails. -/
theorem poller_map_invariant_counterexample :
    ¬ MapInvAdded (pollerStep
      (pollerStep pollerW0 (PollerOp.updateCh 5 ⟨true, false⟩))
      (PollerOp.updateCh 5 ⟨false, false⟩)) := by
  decide

/-- C3 (amended): every channel stored in the poller's map has index ADDED
or DELETED — never NEW — and this is preserved by every sequence of
`updateChannel`/`removeChannel` operations; in particular, `updateChannel`
on an ADDED channel with empty interest keeps the channel in the map, now
with index DELETED. -/
theorem poller_map_index_registered (w : PollerW) (ops : List PollerOp)
    (hInv : MapInvReg w) :
    MapInvReg (ops.foldl pollerStep w) ∧
    (∀ fd, (w.chans fd).index = kAdded → fd ∈ w.inMap →
      fd ∈ (pollerStep w (PollerOp.updateCh fd Interest.noneEvent)).inMap ∧
      ((pollerStep w
        (PollerOp.updateCh fd Interest.noneEvent)).chans fd).index =
        kDeleted) := by
  constructor
  · have hstep : ∀ (w' : PollerW) (op : PollerOp), MapInvReg w' →
        MapInvReg (pollerStep w' op) := by
      intro w' op hI g hg
      rcases pollerStep_mapInv w' op g hg with ⟨hmem, heq⟩ | h | h
      · rw [heq]
        exact hI g hmem
      · exact Or.inl h
      · exact Or.inr h
    have hfold : ∀ (l : List PollerOp) (w' : PollerW), MapInvReg w' →
        MapInvReg (l.foldl pollerStep w') := by
      intro l
      induction l with
      | nil => intro w' h; exact h
      | cons op tl ih => intro w' h; exact ih _ (hstep w' op h)
    exact hfold ops w hInv
  · intro fd hidx hmem
    have hch : ((w.setEvents fd Interest.noneEvent).chans fd).index =
        kAdded := by
      rw [setEvents_index]
      exact hidx
    have hguard : ¬(((w.setEvents fd Interest.noneEvent).chans fd).index =
        kNew ∨
        ((w.setEvents fd Interest.noneEvent).chans fd).index = kDeleted) := by
      rw [hch]
      decide
    have hev : ((w.setEvents fd Interest.noneEvent).chans fd).events =
        Interest.noneEvent := by
      simp [PollerW.setEvents]
    constructor
    · simp only [pollerStep, EPollPoller.updateChannel]
      rw [if_neg hguard, if_pos (by rw [hev]; rfl)]
      rw [setIndex_inMap, setEvents_inMap]
      exact hmem
    · simp only [pollerStep, EPollPoller.updateChannel]
      rw [if_neg hguard, if_pos (by rw [hev]; rfl)]
      exact setIndex_index_self _ fd kDeleted

/-- Witness for C3 (amended) at a concrete world: starting from the fresh
world (empty map), registering fd 5 and then clearing its interest leaves a
map in which every channel is ADDED or DELETED. -/
theorem poller_map_index_registered_witness :
    MapInvReg ([PollerOp.updateCh 5 ⟨true, false⟩,
      PollerOp.updateCh 5 ⟨false, false⟩].foldl pollerStep pollerW0) :=
  (poller_map_index_registered pollerW0
    [PollerOp.updateCh 5 ⟨true, false⟩,
     PollerOp.updateCh 5 ⟨false, false⟩] (by decide)).1

/-- C7 counterexample: invoking `connectEstablished` on a connection in state
`kDisconnected` (not `kConnecting`) trips no assertion — the source has
none — and instead performs the full establishment transition, ending in
`kConnected` with the connection callback invoked. -/
theorem connectEstablished_no_assert :
    (TcpConnection.connectEstablished
      ⟨StateE.kDisconnected, ⟨false, false⟩, Buffer.mk' 8, 64, true, true,
        false, false, 0, []⟩).state = StateE.kConnected ∧
    (TcpConnection.connectEstablished
      ⟨StateE.kDisconnected, ⟨false, false⟩, Buffer.mk' 8, 64, true, true,
        false, false, 0, []⟩).connCbCount = 1 := by
  decide

/-- C7 (amended): `connectEstablished` checks nothing about the prior state:
for every connection state it transitions to `kConnected`, ties the channel,
enables read interest, and invokes the user connection callback once. -/
theorem connectEstablished_unconditional (c : ConnSt) :
    (TcpConnection.connectEstablished c).state = StateE.kConnected ∧
    (TcpConnection.connectEstablished c).tied = true ∧
    (TcpConnection.connectEstablished c).chanInterest.reading = true ∧
    (TcpConnection.connectEstablished c).connCbCount = c.connCbCount + 1 := by
  simp [TcpConnection.connectEstablished, Interest.enableReading]

theorem getD_range_map (l : List Nat) (base : Nat) :
    (List.range l.length).map (fun i => l.getD i base) = l := by
  induction l with
  | nil => rfl
  | cons a t ih =>
    have h2 : ((fun i => (a :: t).getD i base) ∘ Nat.succ) =
        (fun i => t.getD i base) := by
      funext i
      rfl
    show (List.range (t.length + 1)).map (fun i => (a :: t).getD i base) =
      a :: t
    rw [List.range_succ_eq_map, List.map_cons, List.map_map, h2, ih]
    rfl

theorem getNextLoops_mod (base : Nat) (loops : List Nat) (j k : Nat)
    (hj : j < loops.length) :
    EventLoopThreadPool.getNextLoops ⟨base, loops, j⟩ k =
      (List.range k).map
        (fun i => loops.getD ((j + i) % loops.length) base) := by
  induction k generalizing j with
  | zero => rfl
  | succ k ih =>
    have hne : loops.isEmpty = false := by
      cases loops with
      | nil => simp at hj
      | cons a t => rfl
    have hnext : (if loops.length ≤ j + 1 then 0 else j + 1) =
        (j + 1) % loops.length := by
      by_cases h : loops.length ≤ j + 1
      · rw [if_pos h]
        have hEq : j + 1 = loops.length := by omega
        rw [hEq, Nat.mod_self]
      · rw [if_neg h]
        rw [Nat.mod_eq_of_lt (by omega)]
    have hstep : (⟨base, loops, j⟩ :
        EventLoopThreadPool).getNextLoop =
        (loops.getD j base, ⟨base, loops, (j + 1) % loops.length⟩) := by
      simp only [EventLoopThreadPool.getNextLoop, hne]
      rw [hnext]
      rfl
    simp only [EventLoopThreadPool.getNextLoops, hstep]
    rw [ih ((j + 1) % loops.length) (Nat.mod_lt _ (by omega))]
    rw [List.range_succ_eq_map, List.map_cons, List.map_map]
    congr 1
    · have hz : (j + 0) % loops.length = j := by
        rw [Nat.add_zero, Nat.mod_eq_of_lt hj]
      rw [hz]
    · apply List.map_congr_left
      intro a _
      show loops.getD (((j + 1) % loops.length + a) % loops.length) base =
        loops.getD ((j + Nat.succ a) % loops.length) base
      rw [Nat.mod_add_mod, show j + 1 + a = j + Nat.succ a from by omega]

/-- C6: with N >= 1 started worker loops, `getNextLoop` returns loop
`i mod N` on the i-th call (counting from 0) and advances the counter, so
the first 3N calls yield the worker list repeated three times; with N == 0
every call returns the base loop. -/
theorem getNextLoop_roundRobin (base : Nat) (loops : List Nat) :
    (0 < loops.length →
      (∀ i k, i < k →
        (EventLoopThreadPool.getNextLoops ⟨base, loops, 0⟩ k).getD i base =
          loops.getD (i % loops.length) base) ∧
      EventLoopThreadPool.getNextLoops ⟨base, loops, 0⟩
          (3 * loops.length) =
        loops ++ loops ++ loops) ∧
    (loops.length = 0 →
      ∀ k, EventLoopThreadPool.getNextLoops ⟨base, loops, 0⟩ k =
        List.replicate k base) := by
  constructor
  · intro hL
    have hgetf : ∀ (f : Nat → Nat) (k i : Nat), i < k →
        ((List.range k).map f).getD i base = f i := by
      intro f k i hik
      rw [List.getD_eq_getElem?_getD, List.getElem?_map,
        List.getElem?_range hik]
      rfl
    have hzero : ∀ i, (0 + i) % loops.length = i % loops.length := by
      intro i
      rw [Nat.zero_add]
    constructor
    · intro i k hik
      rw [getNextLoops_mod base loops 0 k hL, hgetf _ k i hik, hzero]
    · rw [getNextLoops_mod base loops 0 (3 * loops.length) hL]
      rw [show ((fun i => loops.getD ((0 + i) % loops.length) base) :
          Nat → Nat) = fun i => loops.getD (i % loops.length) base from
        by funext i; rw [hzero]]
      have hg1 : (List.range loops.length).map
          (fun i => loops.getD (i % loops.length) base) = loops := by
        have hcongr : (List.range loops.length).map
            (fun i => loops.getD (i % loops.length) base) =
            (List.range loops.length).map (fun i => loops.getD i base) :=
          List.map_congr_left fun i hi => by
            rw [Nat.mod_eq_of_lt (List.mem_range.mp hi)]
        rw [hcongr, getD_range_map]
      have hshift : ∀ c : Nat, (List.range c).map
          ((fun i => loops.getD (i % loops.length) base) ∘
            (fun x => loops.length + x)) =
          (List.range c).map
            (fun i => loops.getD (i % loops.length) base) := by
        intro c
        apply List.map_congr_left
        intro x _
        show loops.getD ((loops.length + x) % loops.length) base =
          loops.getD (x % loops.length) base
        rw [Nat.add_mod_left]
      rw [show 3 * loops.length =
        loops.length + (loops.length + loops.length) from by ring]
      rw [List.range_add, List.map_append, List.map_map, hshift, hg1]
      rw [List.range_add, List.map_append, List.map_map, hshift, hg1]
      rw [List.append_assoc]
  · intro hL0 k
    have hnil : loops = [] := List.eq_nil_of_length_eq_zero hL0
    subst hnil
    induction k with
    | zero => rfl
    | succ k ih =>
      rw [List.replicate_succ]
      simp only [EventLoopThreadPool.getNextLoops]
      rw [show (⟨base, [], 0⟩ : EventLoopThreadPool).getNextLoop =
          (base, ⟨base, [], 0⟩) from rfl]
      rw [ih]

/-- Witness for C6: with three workers [10, 20, 30] and the cursor at 0, the
first 9 selections are the worker list repeated three times. -/
theorem getNextLoop_roundRobin_witness :
    EventLoopThreadPool.getNextLoops ⟨9, [10, 20, 30], 0⟩ 9 =
      [10, 20, 30, 10, 20, 30, 10, 20, 30] := by
  have h2 := ((getNextLoop_roundRobin 9 [10, 20, 30]).1 (by decide)).2
  norm_num at h2
  exact h2

/-- C8 (code bug): with the TcpServer option `kNoReusePort` the Acceptor
constructor receives `reuseport = false`, yet still passes `true` to
`setReusePort`, so SO_REUSEPORT is enabled regardless of the option. -/
theorem acceptor_reuseport_ignored :
    Acceptor.setReusePortArg
      (TcpServer.acceptorReuseportArg TcpServerOption.kNoReusePort) = true ∧
    TcpServer.acceptorReuseportArg TcpServerOption.kNoReusePort = false := by
  decide

end Muduo
